import Mathlib

/-!
# image-gps-exif: a shallow embedding of `main.go`

The program creates a CSV file, writes a header row, walks the directory `images`,
keeps the regular files with a supported image extension, extracts GPS coordinates
from each of them through the go-exif library, appends one record per success to the
global `meta`, writes one CSV row per record and finally renders `meta` as an HTML table.

Everything outside the repository (the file system, `filepath.Walk`, `encoding/csv`,
go-exif, `strconv.FormatFloat`, `html/template`) is an explicit environment `Env` whose
fields give the outcome of each external call; the control flow of `main`, of the walk
callback, of `GenerateHTML` and of `isSupportedImageExt` is translated from the source.

Go strings are byte sequences. The only bytes the program compares are ASCII (the dot,
the path separators and the literal suffixes), and an ASCII byte never occurs inside a
multi-byte UTF-8 sequence, so strings are embedded as Lean strings and scanned by
character.
-/

namespace ImageGpsExif

/-! ## Standard-library string helpers used by the source -/

/-- Go `os.IsPathSeparator`: the slash, and on Windows also the backslash. -/
def IsPathSeparator (windows : Bool) (c : Char) : Bool :=
  c == '/' || (windows && c == '\\')

/-- The loop of Go `filepath.Ext`: `n` is `i + 1` for the loop index `i`, which runs from
`len(path) - 1` down to `0` and stops at the first path separator; at a dot the loop
returns `path[i:]`. -/
def extLoop (windows : Bool) (path : List Char) : Nat → List Char
  | 0 => []
  | i + 1 =>
    if IsPathSeparator windows (path.getD i ' ') then []
    else if path.getD i ' ' = '.' then path.drop i
    else extLoop windows path i

/-- Go `filepath.Ext`: the suffix of `path` beginning at the final dot of the final path
element, empty when there is no such dot. -/
def Ext (windows : Bool) (path : String) : String :=
  ⟨extLoop windows path.data path.data.length⟩

/-- Go `strings.HasSuffix`: `len(s) >= len(suffix) && s[len(s)-len(suffix):] == suffix`. -/
def HasSuffix (s suffix : String) : Bool :=
  decide (suffix.data.length ≤ s.data.length) &&
    (s.data.drop (s.data.length - suffix.data.length) == suffix.data)

/-- Go `strings.TrimSuffix`: `s` without the trailing `suffix` when it has one, else `s`. -/
def TrimSuffix (s suffix : String) : String :=
  if HasSuffix s suffix then ⟨s.data.take (s.data.length - suffix.data.length)⟩ else s

/-! ## Functions of `main.go` without I/O -/

/-- Source `isSupportedImageExt` (main.go:182-185). -/
def isSupportedImageExt (windows : Bool) (file : String) : Bool :=
  let ext := Ext windows file
  ext == ".jpg" || ext == ".jpeg" || ext == ".png" || ext == ".gif"

/-- The file name `GenerateHTML` passes to `os.Create` (main.go:165):
`strings.TrimSuffix(csvFile, ".csv") + ".html"`. -/
def htmlFileName (csvFile : String) : String :=
  TrimSuffix csvFile ".csv" ++ ".html"

/-! ## Data model -/

/-- Source `Metadata` (main.go:19-22). -/
structure Metadata where
  Path : String
  Latitude : String
  Longitude : String
deriving DecidableEq

/-- One call of the walk callback by `filepath.Walk`: the `path` argument, `info.IsDir()`
(read by the callback only when `err` is nil) and the `err` argument (`none` for nil). -/
structure WalkEntry where
  path : String
  isDir : Bool
  err : Option String
deriving DecidableEq

/-- Everything the program gets from outside: the platform, the file system and the
libraries. An error value is the text of a Go `error`; `none` in an `Option String`
is the nil error. -/
structure Env where
  /-- Whether `os.IsPathSeparator` also accepts the backslash. -/
  windows : Bool
  /-- Error of `os.Create(*csvFile)`. -/
  createCsv : String → Option String
  /-- Error of the call number `k` of `writer.Write` (call 0 writes the header). -/
  writeErr : Nat → Option String
  /-- The calls `filepath.Walk("images", fn)` makes to `fn` while `fn` returns nil. -/
  entries : List WalkEntry
  /-- Error of `exifcommon.LoadStandardIfds`. -/
  loadStandardIfds : Option String
  /-- Result types of the go-exif calls. -/
  RawExif : Type
  IfdIndex : Type
  Ifd : Type
  GpsInfo : Type
  /-- Outcome of `ioutil.ReadFile(file)`. -/
  readFile : String → Except String (List Nat)
  /-- Outcome of `exif.SearchAndExtractExif(fileBytes)`. -/
  searchAndExtractExif : List Nat → Except String RawExif
  /-- Outcome of `exif.Collect(exifIfdMapping, exifTagIndex, rawExif)`. -/
  collect : RawExif → Except String IfdIndex
  /-- Outcome of `ifdIndex.RootIfd.ChildWithIfdPath(IfdGpsInfoStandardIfdIdentity)`. -/
  childWithIfdPath : IfdIndex → Except String Ifd
  /-- Outcome of `ifd.GpsInfo()`. -/
  gpsInfo : Ifd → Except String GpsInfo
  /-- Value of `strconv.FormatFloat(gi.Latitude.Decimal(), 'f', -1, 64)`. -/
  latitudeStr : GpsInfo → String
  /-- Value of `strconv.FormatFloat(gi.Longitude.Decimal(), 'f', -1, 64)`. -/
  longitudeStr : GpsInfo → String
  /-- Error of `os.Create` on the HTML file name. -/
  createHtml : String → Option String
  /-- Error of `tmpl.Execute(file, meta)`. -/
  execute : List Metadata → Option String

/-- The `csv.Writer`: the records accepted so far and the number of `Write` calls made. -/
structure CsvWriter where
  rows : List (List String)
  calls : Nat
deriving DecidableEq

/-- One call of `writer.Write(record)`: on success the record becomes the next row. -/
def CsvWriter.Write (env : Env) (w : CsvWriter) (record : List String) :
    CsvWriter × Option String :=
  match env.writeErr w.calls with
  | none => (⟨w.rows ++ [record], w.calls + 1⟩, none)
  | some e => (⟨w.rows, w.calls + 1⟩, some e)

/-- The globals `files` and `meta`, the CSV writer, the paths handed to `ioutil.ReadFile`
in call order, and the lines sent to the logger and to standard output. -/
structure State where
  files : List String
  meta : List Metadata
  writer : CsvWriter
  reads : List String
  log : List String
  stdout : List String
deriving DecidableEq

/-- State at process start: the globals hold their zero values. -/
def State.init : State := ⟨[], [], ⟨[], 0⟩, [], [], []⟩

/-- How the process ends: `main` returns (status 0), `log.Fatalf` (status 1) or `panic`
(status 2). -/
inductive Exit where
  | ok
  | fatal (msg : String)
  | panicked (msg : String)
deriving DecidableEq

/-- Exit status of the process. -/
def Exit.status : Exit → Nat
  | .ok => 0
  | .fatal _ => 1
  | .panicked _ => 2

/-- One `<tr>` of the `range` block of the template: the `src` of the image, then the two
text cells (the escaping done by `html/template` is outside the model). -/
structure HtmlRow where
  imgSrc : String
  latitude : String
  longitude : String
deriving DecidableEq

/-- What a call of `GenerateHTML` did. -/
inductive HtmlResult where
  | createFailed (name err : String)
  | executeFailed (name err : String)
  | generated (name : String) (rows : List HtmlRow)
deriving DecidableEq

/-- A finished run: how it ended, the final state, and the result of `GenerateHTML`
(`none` when `GenerateHTML` was not called). -/
structure Run where
  exit : Exit
  state : State
  html : Option HtmlResult

/-! ## The program -/

/-- The callback given to `filepath.Walk` (main.go:54-65). The result is the new state
and the error the callback returns. -/
def walkFn (windows : Bool) (st : State) (e : WalkEntry) : State × Option String :=
  match e.err with
  | some err => ({ st with stdout := st.stdout ++ [err] }, none)
  | none =>
    if !e.isDir && isSupportedImageExt windows e.path then
      ({ st with files := st.files ++ [e.path] }, none)
    else (st, none)

/-- Go `filepath.Walk` over the calls it would make: the callback is applied to each
entry in turn and the first non-nil error it returns ends the walk and is returned.
(`SkipDir` and `SkipAll`, which `Walk` turns into nil, are never returned by `walkFn`.) -/
def Walk (fn : State → WalkEntry → State × Option String) :
    List WalkEntry → State → State × Option String
  | [], st => (st, none)
  | e :: es, st =>
    match fn st e with
    | (st1, none) => Walk fn es st1
    | (st1, some err) => (st1, some err)

/-- The row template of `GenerateHTML` (main.go:149-155) applied to one record. -/
def renderRow (m : Metadata) : HtmlRow := ⟨m.Path, m.Latitude, m.Longitude⟩

/-- The CSV record `main` writes for a record of `meta` (main.go:123). -/
def csvRecord (m : Metadata) : List String := [m.Path, m.Latitude, m.Longitude]

/-- The body of the loop over `files` (main.go:77-127); each `continue` is a branch that
returns the state reached so far. -/
def processFile (env : Env) (st : State) (file : String) : State :=
  if isSupportedImageExt env.windows file then
    let st := { st with reads := st.reads ++ [file] }
    match env.readFile file with
    | .error err =>
      { st with log := st.log ++ ["failed to read image file " ++ file ++ ": " ++ err] }
    | .ok fileBytes =>
    match env.searchAndExtractExif fileBytes with
    | .error err => { st with log := st.log ++ [file ++ ": " ++ err] }
    | .ok rawExif =>
    match env.collect rawExif with
    | .error err => { st with log := st.log ++ [file ++ ": " ++ err] }
    | .ok ifdIndex =>
    match env.childWithIfdPath ifdIndex with
    | .error err => { st with log := st.log ++ [file ++ ": " ++ err] }
    | .ok ifd =>
    match env.gpsInfo ifd with
    | .error err => { st with log := st.log ++ ["failed to get GPS info: " ++ err] }
    | .ok gi =>
      let latitudeStr := env.latitudeStr gi
      let longitudeStr := env.longitudeStr gi
      let st := { st with
        meta := st.meta ++
          [{ Path := file, Latitude := latitudeStr, Longitude := longitudeStr : Metadata }] }
      match CsvWriter.Write env st.writer [file, latitudeStr, longitudeStr] with
      | (w, some err) =>
        { st with
          writer := w
          log := st.log ++ ["failed to write CSV row for file " ++ file ++ ": " ++ err] }
      | (w, none) => { st with writer := w }
  else st

/-- Source `GenerateHTML` (main.go:135-180), reading the global `meta` from the state. -/
def GenerateHTML (env : Env) (st : State) (csvFile : String) : State × HtmlResult :=
  let name := htmlFileName csvFile
  match env.createHtml name with
  | some err =>
    ({ st with stdout := st.stdout ++ ["Failed to create file: " ++ err] },
      .createFailed name err)
  | none =>
    match env.execute st.meta with
    | some err =>
      ({ st with stdout := st.stdout ++ ["Failed to write HTML: " ++ err] },
        .executeFailed name err)
    | none =>
      ({ st with stdout := st.stdout ++ ["HTML file '" ++ name ++ "' generated successfully."] },
        .generated name (st.meta.map renderRow))

/-- The header record (main.go:49). -/
def header : List String := ["path", "latitude", "longitude"]

/-- Source `main` (main.go:31-133) for the flag value `csvFile`. -/
def main (env : Env) (csvFile : String) : Run :=
  let st := State.init
  match env.createCsv csvFile with
  | some err => ⟨.fatal ("failed to create CSV file: " ++ err), st, none⟩
  | none =>
  match CsvWriter.Write env st.writer header with
  | (w, some err) =>
    ⟨.fatal ("failed to write CSV header: " ++ err), { st with writer := w }, none⟩
  | (w, none) =>
  let st := { st with writer := w }
  match Walk (walkFn env.windows) env.entries st with
  | (st, some err) => ⟨.fatal ("failed to walk through dir & sub-dir : " ++ err), st, none⟩
  | (st, none) =>
  match env.loadStandardIfds with
  | some err => ⟨.panicked err, st, none⟩
  | none =>
  let st := st.files.foldl (processFile env) st
  let st := { st with stdout := st.stdout ++ ["CSV file '" ++ csvFile ++ "' generated successfully."] }
  let (st, html) := GenerateHTML env st csvFile
  ⟨.ok, st, some html⟩

/-- The rows of the CSV after the header. -/
def Run.dataRows (r : Run) : List (List String) := r.state.writer.rows.tail

/-! ## Views of a run used to state the properties -/

/-- The record that lines 80-120 of `main` build for `file`: `none` when one of the five
steps (read, EXIF search, parse, GPS sub-IFD lookup, GPS decode) fails. -/
def extractRecord (env : Env) (file : String) : Option Metadata :=
  match env.readFile file with
  | .error _ => none
  | .ok fileBytes =>
  match env.searchAndExtractExif fileBytes with
  | .error _ => none
  | .ok rawExif =>
  match env.collect rawExif with
  | .error _ => none
  | .ok ifdIndex =>
  match env.childWithIfdPath ifdIndex with
  | .error _ => none
  | .ok ifd =>
  match env.gpsInfo ifd with
  | .error _ => none
  | .ok gi => some ⟨file, env.latitudeStr gi, env.longitudeStr gi⟩

/-- The rows the writer accepts when the records `ms` are written, in order, by the
`Write` calls number `k`, `k + 1`, ...: the record of a failing call leaves no row. -/
def acceptedRows (env : Env) : Nat → List Metadata → List (List String)
  | _, [] => []
  | k, m :: ms =>
    if env.writeErr k = none then csvRecord m :: acceptedRows env (k + 1) ms
    else acceptedRows env (k + 1) ms

/-- The paths of the walk entries that carry no error, are not directories and have a
supported extension, in visit order. -/
def keptPaths (windows : Bool) (es : List WalkEntry) : List String :=
  (es.filter (fun e => e.err.isNone && !e.isDir && isSupportedImageExt windows e.path)).map
    WalkEntry.path

/-- The record the loop body collects for `file`: the loop body guards the extraction by
`isSupportedImageExt`. -/
def collected (env : Env) (file : String) : Option Metadata :=
  if isSupportedImageExt env.windows file then extractRecord env file else none

/-- The state at the head of the loop over `files`, once the header is written and the
walk is done. -/
def loopStart (env : Env) : State :=
  { files := keptPaths env.windows env.entries
    meta := []
    writer := ⟨[header], 1⟩
    reads := []
    log := []
    stdout := env.entries.filterMap WalkEntry.err }

/-- The state at the call of `GenerateHTML`. -/
def afterLoop (env : Env) (csvFile : String) : State :=
  { (keptPaths env.windows env.entries).foldl (processFile env) (loopStart env) with
    stdout := ((keptPaths env.windows env.entries).foldl (processFile env) (loopStart env)).stdout
      ++ ["CSV file '" ++ csvFile ++ "' generated successfully."] }

/-- The path field of a CSV data row. -/
def rowPath (row : List String) : String := row.headD ""

/-- A sample environment: `images` holds `a.jpg` (GPS data), `b.png` (no EXIF block),
`c.txt`, a subdirectory `d.gif` and an unreadable entry; byte contents are stand-ins. -/
def sampleEnv : Env where
  windows := false
  createCsv := fun _ => none
  writeErr := fun _ => none
  entries := [⟨"images", true, none⟩, ⟨"images/a.jpg", false, none⟩,
    ⟨"images/b.png", false, none⟩, ⟨"images/c.txt", false, none⟩,
    ⟨"images/d.gif", true, none⟩, ⟨"images/e.jpg", false, some "lstat images/e.jpg: permission denied"⟩]
  loadStandardIfds := none
  RawExif := Nat
  IfdIndex := Nat
  Ifd := Nat
  GpsInfo := String × String
  readFile := fun p => if p = "images/a.jpg" then .ok [1] else .ok [0]
  searchAndExtractExif := fun b => if b = [1] then .ok 1 else .error "no exif data"
  collect := fun x => .ok x
  childWithIfdPath := fun x => .ok x
  gpsInfo := fun _ => .ok ("51.5074", "0.1278")
  latitudeStr := fun g => g.1
  longitudeStr := fun g => g.2
  createHtml := fun _ => none
  execute := fun _ => none

/-- The directory `images` does not exist: `os.Lstat` on the root fails and `filepath.Walk`
calls the callback once, with that error. -/
def missingRootEnv : Env :=
  { sampleEnv with
    entries := [⟨"images", false, some "lstat images: no such file or directory"⟩] }

/-- A string ends in `suf` exactly when its characters end in those of `suf`. -/
theorem endsIn_iff (s suf : String) : (∃ p : String, s = p ++ suf) ↔ suf.data <:+ s.data := by
  constructor
  · rintro ⟨p, rfl⟩
    exact ⟨p.data, by simp⟩
  · rintro ⟨t, ht⟩
    exact ⟨⟨t⟩, String.ext (by simp [ht])⟩

theorem hasSuffix_iff (s suf : String) : HasSuffix s suf = true ↔ suf.data <:+ s.data := by
  unfold HasSuffix
  constructor
  · intro h
    simp only [Bool.and_eq_true, decide_eq_true_eq, beq_iff_eq] at h
    rw [← h.2]
    exact List.drop_suffix _ _
  · rintro ⟨t, ht⟩
    simp only [Bool.and_eq_true, decide_eq_true_eq, beq_iff_eq]
    refine ⟨by simp [← ht], ?_⟩
    rw [← ht]
    simp

theorem extLoop_none_or_drop (w : Bool) (path : List Char) (n : Nat) :
    extLoop w path n = [] ∨ ∃ i, extLoop w path n = path.drop i := by
  induction n with
  | zero => exact Or.inl rfl
  | succ i ih =>
    unfold extLoop
    split
    · exact Or.inl rfl
    · split
      · exact Or.inr ⟨i, rfl⟩
      · exact ih

theorem extLoop_dot (w : Bool) (pre suf : List Char)
    (hsuf : ∀ c ∈ suf, c ≠ '.' ∧ IsPathSeparator w c = false) (k : Nat) (hk : k ≤ suf.length) :
    extLoop w (pre ++ '.' :: suf) (pre.length + 1 + k) = '.' :: suf := by
  induction k with
  | zero =>
    have h1 : (pre ++ '.' :: suf).getD pre.length ' ' = '.' := by
      rw [List.getD_eq_getElem?_getD, List.getElem?_append_right (le_refl _)]
      simp
    have h2 : IsPathSeparator w '.' = false := by cases w <;> decide
    show extLoop w (pre ++ '.' :: suf) (pre.length + 1) = '.' :: suf
    unfold extLoop
    rw [h1, h2]
    simp
  | succ k ih =>
    have hk' : k < suf.length := hk
    have h1 : (pre ++ '.' :: suf).getD (pre.length + 1 + k) ' ' = suf[k] := by
      rw [List.getD_eq_getElem?_getD, List.getElem?_append_right (by omega)]
      have : pre.length + 1 + k - pre.length = k + 1 := by omega
      simp [this, hk']
    have hm := hsuf suf[k] (List.getElem_mem _)
    rw [show pre.length + 1 + (k + 1) = (pre.length + 1 + k) + 1 by omega]
    unfold extLoop
    rw [h1]
    simp only [hm.2, hm.1, if_false, Bool.false_eq_true]
    exact ih (by omega)

theorem ext_eq_of_endsIn (w : Bool) (s : String) (suf : List Char)
    (hsuf : ∀ c ∈ suf, c ≠ '.' ∧ IsPathSeparator w c = false)
    (h : ('.' :: suf) <:+ s.data) : Ext w s = ⟨'.' :: suf⟩ := by
  obtain ⟨pre, hp⟩ := h
  unfold Ext
  congr 1
  rw [← hp]
  have hlen : (pre ++ '.' :: suf).length = pre.length + 1 + suf.length := by
    simp [Nat.add_comm, Nat.add_left_comm]
  rw [hlen]
  exact extLoop_dot w pre suf hsuf suf.length (le_refl _)

theorem endsIn_of_ext_eq (w : Bool) (s : String) (e : String) (he : e.data ≠ [])
    (h : Ext w s = e) : e.data <:+ s.data := by
  have h' : extLoop w s.data s.data.length = e.data := by rw [← h]; rfl
  rcases extLoop_none_or_drop w s.data s.data.length with h0 | ⟨i, hi⟩
  · exact absurd (h'.symm.trans h0) he
  · rw [← h', hi]; exact List.drop_suffix _ _

theorem ext_eq_iff (w : Bool) (s e : String) (suf : List Char) (he : e.data = '.' :: suf)
    (hsuf : ∀ c ∈ suf, c ≠ '.' ∧ IsPathSeparator w c = false) :
    Ext w s = e ↔ ∃ p : String, s = p ++ e := by
  rw [endsIn_iff]
  constructor
  · intro h
    exact endsIn_of_ext_eq w s e (by simp [he]) h
  · intro h
    rw [he] at h
    rw [ext_eq_of_endsIn w s suf hsuf h]
    exact String.ext he.symm

/-- C1. `isSupportedImageExt` accepts exactly the strings that end in `.jpg`, `.jpeg`,
`.png` or `.gif`, on either platform; the comparison is case-sensitive, so `image.JPG`
and `image.pdf` are rejected. -/
theorem isSupportedImageExt_iff_suffix (windows : Bool) (s : String) :
    (isSupportedImageExt windows s = true ↔
      ((∃ p : String, s = p ++ ".jpg") ∨ (∃ p : String, s = p ++ ".jpeg") ∨
        (∃ p : String, s = p ++ ".png") ∨ (∃ p : String, s = p ++ ".gif"))) ∧
    isSupportedImageExt windows "image.JPG" = false ∧
    isSupportedImageExt windows "image.pdf" = false := by
  refine ⟨?_, by cases windows <;> decide, by cases windows <;> decide⟩
  have h1 := ext_eq_iff windows s ".jpg" ['j', 'p', 'g'] rfl (by cases windows <;> decide)
  have h2 := ext_eq_iff windows s ".jpeg" ['j', 'p', 'e', 'g'] rfl (by cases windows <;> decide)
  have h3 := ext_eq_iff windows s ".png" ['p', 'n', 'g'] rfl (by cases windows <;> decide)
  have h4 := ext_eq_iff windows s ".gif" ['g', 'i', 'f'] rfl (by cases windows <;> decide)
  unfold isSupportedImageExt
  simp only [Bool.or_eq_true, beq_iff_eq, or_assoc]
  rw [h1, h2, h3, h4]

theorem trimSuffix_append (p suf : String) : TrimSuffix (p ++ suf) suf = p := by
  have h : HasSuffix (p ++ suf) suf = true := (hasSuffix_iff _ _).2 ⟨p.data, by simp⟩
  unfold TrimSuffix
  rw [if_pos h]
  exact String.ext (by simp)

theorem trimSuffix_of_not_endsIn (c suf : String) (h : ¬ ∃ p : String, c = p ++ suf) :
    TrimSuffix c suf = c := by
  unfold TrimSuffix
  rw [if_neg]
  rw [hasSuffix_iff, ← endsIn_iff]
  exact h

theorem trimSuffix_length (c suf : String) :
    (TrimSuffix c suf).data.length = c.data.length ∨
      (TrimSuffix c suf).data.length + suf.data.length = c.data.length := by
  unfold TrimSuffix
  by_cases h : HasSuffix c suf = true
  · rw [if_pos h]
    right
    have := ((hasSuffix_iff _ _).1 h).length_le
    show (c.data.take (c.data.length - suf.data.length)).length + suf.data.length = c.data.length
    rw [List.length_take]
    omega
  · rw [if_neg h]; exact Or.inl rfl

/-- C3. The HTML file name is the CSV name with one trailing `.csv` replaced by `.html`,
and the CSV name followed by `.html` when it does not end in `.csv`. -/
theorem htmlFileName_spec (c p : String) :
    htmlFileName (p ++ ".csv") = p ++ ".html" ∧
    ((¬ ∃ q : String, c = q ++ ".csv") → htmlFileName c = c ++ ".html") ∧
    htmlFileName "foo.csv" = "foo.html" ∧
    htmlFileName "report" = "report.html" ∧
    htmlFileName (p ++ ".csv" ++ ".csv") = p ++ ".csv" ++ ".html" := by
  refine ⟨?_, ?_, by decide, by decide, ?_⟩
  · unfold htmlFileName; rw [trimSuffix_append]
  · intro h; unfold htmlFileName; rw [trimSuffix_of_not_endsIn c ".csv" h]
  · unfold htmlFileName; rw [trimSuffix_append]

theorem htmlFileName_spec_witness :
    (¬ ∃ q : String, "report" = q ++ ".csv") ∧ htmlFileName "report" = "report" ++ ".html" :=
  have h : ¬ ∃ q : String, "report" = q ++ ".csv" := by
    rw [endsIn_iff, ← hasSuffix_iff]; decide
  ⟨h, (htmlFileName_spec "report" "").2.1 h⟩

/-- C10. The HTML file name ends in `.html` and differs from the CSV file name. -/
theorem htmlFileName_ne_csvFile (c : String) :
    (∃ p : String, htmlFileName c = p ++ ".html") ∧ htmlFileName c ≠ c := by
  refine ⟨⟨TrimSuffix c ".csv", rfl⟩, ?_⟩
  intro h
  have hl : (htmlFileName c).data.length = c.data.length := by rw [h]
  have h5 : (htmlFileName c).data.length = (TrimSuffix c ".csv").data.length + 5 := by
    unfold htmlFileName; simp
  have h4 : (".csv" : String).data.length = 4 := by decide
  rcases trimSuffix_length c ".csv" with h0 | h0 <;> omega

/-! ## The walk -/

theorem walkFn_snd (w : Bool) (st : State) (e : WalkEntry) : (walkFn w st e).2 = none := by
  unfold walkFn
  split
  · rfl
  · split <;> rfl

theorem walk_walkFn (w : Bool) (es : List WalkEntry) (st : State) :
    Walk (walkFn w) es st =
      ({ st with
          files := st.files ++
            keptPaths w es
          stdout := st.stdout ++ es.filterMap WalkEntry.err }, none) := by
  unfold keptPaths
  induction es generalizing st with
  | nil => simp [Walk]
  | cons e es ih =>
    obtain ⟨p, d, err⟩ := e
    cases err with
    | some x => simp [Walk, walkFn, ih]
    | none =>
      by_cases h : (!d && isSupportedImageExt w p) = true
      · simp [Walk, walkFn, ih, h]
      · simp [Walk, walkFn, ih, h]

/-! ## The loop over `files` -/

theorem acceptedRows_append (env : Env) (k : Nat) (a b : List Metadata) :
    acceptedRows env k (a ++ b) = acceptedRows env k a ++ acceptedRows env (k + a.length) b := by
  induction a generalizing k with
  | nil => simp [acceptedRows]
  | cons m a ih =>
    have hk : k + 1 + a.length = k + (a.length + 1) := by omega
    have h := ih (k + 1)
    rw [hk] at h
    show acceptedRows env k (m :: (a ++ b)) = _
    simp only [acceptedRows, List.length_cons, h]
    split <;> simp

theorem processFile_spec (env : Env) (st : State) (file : String) :
    (processFile env st file).files = st.files ∧
    (processFile env st file).stdout = st.stdout ∧
    (processFile env st file).reads =
      st.reads ++ (if isSupportedImageExt env.windows file then [file] else []) ∧
    (processFile env st file).meta = st.meta ++ (collected env file).toList ∧
    (processFile env st file).writer.calls =
      st.writer.calls + (collected env file).toList.length ∧
    (processFile env st file).writer.rows =
      st.writer.rows ++ acceptedRows env st.writer.calls (collected env file).toList := by
  unfold processFile collected extractRecord
  by_cases hs : isSupportedImageExt env.windows file = true
  · simp only [hs, if_true]
    cases h1 : env.readFile file with
    | error e => simp [acceptedRows]
    | ok b =>
      dsimp only
      cases h2 : env.searchAndExtractExif b with
      | error e => simp [acceptedRows]
      | ok x =>
        dsimp only
        cases h3 : env.collect x with
        | error e => simp [acceptedRows]
        | ok i =>
          dsimp only
          cases h4 : env.childWithIfdPath i with
          | error e => simp [acceptedRows]
          | ok d =>
            dsimp only
            cases h5 : env.gpsInfo d with
            | error e => simp [acceptedRows]
            | ok g =>
              dsimp only
              cases h6 : env.writeErr st.writer.calls with
              | none => simp [acceptedRows, CsvWriter.Write, h6, csvRecord]
              | some e => simp [acceptedRows, CsvWriter.Write, h6]
  · simp [hs, acceptedRows]

theorem foldl_processFile (env : Env) (fs : List String) (st : State) :
    (fs.foldl (processFile env) st).files = st.files ∧
    (fs.foldl (processFile env) st).stdout = st.stdout ∧
    (fs.foldl (processFile env) st).reads =
      st.reads ++ fs.filter (isSupportedImageExt env.windows) ∧
    (fs.foldl (processFile env) st).meta = st.meta ++ fs.filterMap (collected env) ∧
    (fs.foldl (processFile env) st).writer.calls =
      st.writer.calls + (fs.filterMap (collected env)).length ∧
    (fs.foldl (processFile env) st).writer.rows =
      st.writer.rows ++ acceptedRows env st.writer.calls (fs.filterMap (collected env)) := by
  induction fs generalizing st with
  | nil => simp [acceptedRows]
  | cons f fs ih =>
    obtain ⟨h1, h2, h3, h4, h5, h6⟩ := processFile_spec env st f
    obtain ⟨i1, i2, i3, i4, i5, i6⟩ := ih (processFile env st f)
    simp only [List.foldl_cons]
    refine ⟨by rw [i1, h1], by rw [i2, h2], ?_, ?_, ?_, ?_⟩
    · rw [i3, h3]
      by_cases hs : isSupportedImageExt env.windows f = true
      · simp [hs]
      · simp [hs]
    · rw [i4, h4]
      cases hc : collected env f <;> simp [List.filterMap_cons, hc]
    · rw [i5, h5]
      cases hc : collected env f <;> simp [List.filterMap_cons, hc]
      omega
    · rw [i6, h6, h5]
      cases hc : collected env f with
      | none => simp [List.filterMap_cons, hc, acceptedRows]
      | some m =>
        simp only [List.filterMap_cons, hc, Option.toList, List.length_singleton]
        rw [show m :: fs.filterMap (collected env) = [m] ++ fs.filterMap (collected env) from rfl,
          acceptedRows_append, List.append_assoc]
        rfl

/-! ## The whole run -/

theorem generateHTML_state (env : Env) (st : State) (csvFile : String) :
    (GenerateHTML env st csvFile).1.files = st.files ∧
    (GenerateHTML env st csvFile).1.meta = st.meta ∧
    (GenerateHTML env st csvFile).1.writer = st.writer ∧
    (GenerateHTML env st csvFile).1.reads = st.reads := by
  unfold GenerateHTML
  cases h1 : env.createHtml (htmlFileName csvFile) with
  | some e => simp [h1]
  | none =>
    cases h2 : env.execute st.meta with
    | some e => simp [h1, h2]
    | none => simp [h1, h2]

theorem generateHTML_result (env : Env) (st : State) (csvFile : String) :
    (GenerateHTML env st csvFile).2 =
      match env.createHtml (htmlFileName csvFile) with
      | some err => .createFailed (htmlFileName csvFile) err
      | none =>
        match env.execute st.meta with
        | some err => .executeFailed (htmlFileName csvFile) err
        | none => .generated (htmlFileName csvFile) (st.meta.map renderRow) := by
  unfold GenerateHTML
  cases h1 : env.createHtml (htmlFileName csvFile) with
  | some e => simp [h1]
  | none =>
    cases h2 : env.execute st.meta with
    | some e => simp [h1, h2]
    | none => simp [h1, h2]

theorem walked_supported (w : Bool) (es : List WalkEntry) :
    ∀ f ∈ keptPaths w es, isSupportedImageExt w f = true := by
  intro f hf
  simp only [keptPaths, List.mem_map, List.mem_filter, Bool.and_eq_true] at hf
  obtain ⟨e, ⟨_, he⟩, rfl⟩ := hf
  exact he.2

theorem main_eq (env : Env) (csvFile : String) (hc : env.createCsv csvFile = none)
    (hh : env.writeErr 0 = none) (hl : env.loadStandardIfds = none) :
    main env csvFile =
      ⟨.ok, (GenerateHTML env (afterLoop env csvFile) csvFile).1,
        some (GenerateHTML env (afterLoop env csvFile) csvFile).2⟩ := by
  have hw : CsvWriter.Write env State.init.writer header = (⟨[header], 1⟩, none) := by
    simp [CsvWriter.Write, State.init, hh]
  unfold main
  simp only [hc, hw, walk_walkFn, hl]
  simp [afterLoop, loopStart, State.init]

/-- A run in which the CSV file is created, the header is written and the standard IFDs
load: the final state and the HTML result in terms of the environment. -/
theorem main_run (env : Env) (csvFile : String) (hc : env.createCsv csvFile = none)
    (hh : env.writeErr 0 = none) (hl : env.loadStandardIfds = none) :
    (main env csvFile).exit = .ok ∧
    (main env csvFile).state.files =
      keptPaths env.windows env.entries ∧
    (main env csvFile).state.reads = (main env csvFile).state.files ∧
    (main env csvFile).state.meta =
      (main env csvFile).state.files.filterMap (extractRecord env) ∧
    (main env csvFile).state.writer.rows =
      header :: acceptedRows env 1 (main env csvFile).state.meta ∧
    (main env csvFile).html =
      some (match env.createHtml (htmlFileName csvFile) with
        | some err => .createFailed (htmlFileName csvFile) err
        | none =>
          match env.execute (main env csvFile).state.meta with
          | some err => .executeFailed (htmlFileName csvFile) err
          | none =>
            .generated (htmlFileName csvFile) ((main env csvFile).state.meta.map renderRow)) := by
  have hsup := walked_supported env.windows env.entries
  have hfm : ∀ fs : List String, (∀ f ∈ fs, isSupportedImageExt env.windows f = true) →
      fs.filterMap (collected env) = fs.filterMap (extractRecord env) ∧
      fs.filter (isSupportedImageExt env.windows) = fs := by
    intro fs hfs
    induction fs with
    | nil => simp
    | cons f fs ih =>
      have hf := hfs f (List.mem_cons_self _ _)
      obtain ⟨i1, i2⟩ := ih (fun g hg => hfs g (List.mem_cons_of_mem _ hg))
      refine ⟨?_, ?_⟩
      · simp only [List.filterMap_cons, i1, collected, hf, if_true]
      · simp only [List.filter_cons, hf, if_true, i2]
  obtain ⟨k1, k2⟩ := hfm _ hsup
  obtain ⟨f1, _, f3, f4, _, f6⟩ :=
    foldl_processFile env (keptPaths env.windows env.entries) (loopStart env)
  rw [k1] at f4 f6
  rw [k2] at f3
  obtain ⟨g1, g2, g3, g4⟩ := generateHTML_state env (afterLoop env csvFile) csvFile
  have g5 := generateHTML_result env (afterLoop env csvFile) csvFile
  have a1 : (afterLoop env csvFile).files = keptPaths env.windows env.entries := f1
  have a2 : (afterLoop env csvFile).reads = keptPaths env.windows env.entries := by
    rw [show (afterLoop env csvFile).reads = _ from f3]; rfl
  have a3 : (afterLoop env csvFile).meta =
      (keptPaths env.windows env.entries).filterMap (extractRecord env) := by
    rw [show (afterLoop env csvFile).meta = _ from f4]; rfl
  have a4 : (afterLoop env csvFile).writer.rows =
      header :: acceptedRows env 1
        ((keptPaths env.windows env.entries).filterMap (extractRecord env)) := by
    rw [show (afterLoop env csvFile).writer.rows = _ from f6]; rfl
  rw [main_eq env csvFile hc hh hl]
  refine ⟨rfl, ?_, ?_, ?_, ?_, ?_⟩
  · show (GenerateHTML env _ csvFile).1.files = _
    rw [g1, a1]
  · show (GenerateHTML env _ csvFile).1.reads = (GenerateHTML env _ csvFile).1.files
    rw [g4, g1, a2, a1]
  · show (GenerateHTML env _ csvFile).1.meta = (GenerateHTML env _ csvFile).1.files.filterMap _
    rw [g2, g1, a3, a1]
  · show (GenerateHTML env _ csvFile).1.writer.rows =
      header :: acceptedRows env 1 (GenerateHTML env _ csvFile).1.meta
    rw [g3, g2, a4, a3]
  · show some (GenerateHTML env _ csvFile).2 = _
    rw [g5, g2]

/-! ## Records, rows and order -/

theorem extractRecord_eq_some (env : Env) (f : String) (m : Metadata) :
    extractRecord env f = some m ↔
      ∃ (b : List Nat) (x : env.RawExif) (i : env.IfdIndex) (d : env.Ifd) (g : env.GpsInfo),
        env.readFile f = .ok b ∧ env.searchAndExtractExif b = .ok x ∧ env.collect x = .ok i ∧
        env.childWithIfdPath i = .ok d ∧ env.gpsInfo d = .ok g ∧
        m = ⟨f, env.latitudeStr g, env.longitudeStr g⟩ := by
  unfold extractRecord
  cases h1 : env.readFile f with
  | error e => simp
  | ok b =>
    dsimp only
    cases h2 : env.searchAndExtractExif b with
    | error e => simp [h2]
    | ok x =>
      dsimp only
      cases h3 : env.collect x with
      | error e => simp [h2, h3]
      | ok i =>
        dsimp only
        cases h4 : env.childWithIfdPath i with
        | error e => simp [h2, h3, h4]
        | ok d =>
          dsimp only
          cases h5 : env.gpsInfo d with
          | error e => simp [h2, h3, h4, h5]
          | ok g =>
            simp only [Option.some.injEq, Except.ok.injEq]
            constructor
            · intro h
              exact ⟨b, x, i, d, g, rfl, h2, h3, h4, h5, h.symm⟩
            · rintro ⟨b', x', i', d', g', hb, hx, hi, hd, hg, rfl⟩
              subst hb
              rw [h2] at hx
              cases hx
              rw [h3] at hi
              cases hi
              rw [h4] at hd
              cases hd
              rw [h5] at hg
              cases hg
              rfl

theorem extractRecord_path (env : Env) (f : String) (m : Metadata)
    (h : extractRecord env f = some m) : m.Path = f := by
  obtain ⟨b, x, i, d, g, _, _, _, _, _, rfl⟩ := (extractRecord_eq_some env f m).1 h
  rfl

theorem paths_filterMap_sublist (env : Env) (fs : List String) :
    List.Sublist ((fs.filterMap (extractRecord env)).map Metadata.Path) fs := by
  induction fs with
  | nil => simp
  | cons f fs ih =>
    cases h : extractRecord env f with
    | none =>
      simp only [List.filterMap_cons, h]
      exact ih.trans (List.sublist_cons_self f fs)
    | some m =>
      simp only [List.filterMap_cons, h, List.map_cons, extractRecord_path env f m h]
      exact ih.cons₂ f

theorem acceptedRows_sublist (env : Env) (k : Nat) (ms : List Metadata) :
    List.Sublist (acceptedRows env k ms) (ms.map csvRecord) := by
  induction ms generalizing k with
  | nil => simp [acceptedRows]
  | cons m ms ih =>
    simp only [acceptedRows, List.map_cons]
    split
    · exact (ih (k + 1)).cons₂ _
    · exact (ih (k + 1)).trans (List.sublist_cons_self _ _)

/-- What `main` leaves in the state when it stops before the loop over `files`. -/
theorem main_rows_cases (env : Env) (csvFile : String) (hc : env.createCsv csvFile = none) :
    (env.writeErr 0 = none ∧ env.loadStandardIfds ≠ none ∧
      (main env csvFile).state.writer.rows = [header] ∧
      (main env csvFile).state.meta = []) ∨
    (env.writeErr 0 = none ∧ env.loadStandardIfds = none) ∨
    (env.writeErr 0 ≠ none ∧ (main env csvFile).state.writer.rows = [] ∧
      (main env csvFile).state.meta = [] ∧ (main env csvFile).exit.status = 1 ∧
      (main env csvFile).html = none) := by
  cases hh : env.writeErr 0 with
  | some e =>
    right; right
    have hw : CsvWriter.Write env State.init.writer header = (⟨[], 1⟩, some e) := by
      simp [CsvWriter.Write, State.init, hh]
    unfold main
    simp only [hc, hw]
    simp [State.init, Exit.status]
  | none =>
    cases hl : env.loadStandardIfds with
    | none => exact Or.inr (Or.inl ⟨rfl, rfl⟩)
    | some e =>
      left
      have hw : CsvWriter.Write env State.init.writer header = (⟨[header], 1⟩, none) := by
        simp [CsvWriter.Write, State.init, hh]
      unfold main
      simp only [hc, hw, walk_walkFn, hl]
      simp [State.init]

/-! ## Properties of a run -/

/-- C6. In a run that reaches the loop, every enumerated file is handed to
`ioutil.ReadFile` exactly once and in order, whatever happened to the files before it;
`meta` holds, in order, one record per enumerated file for which all five steps
succeed, so a path has a record exactly when it is an enumerated file whose five steps
succeed; and a file with a failing step has neither a record nor a CSV row. -/
theorem record_iff_all_steps (env : Env) (csvFile : String)
    (hc : env.createCsv csvFile = none) (hh : env.writeErr 0 = none)
    (hl : env.loadStandardIfds = none) :
    (main env csvFile).state.reads = (main env csvFile).state.files ∧
    (main env csvFile).state.meta =
      (main env csvFile).state.files.filterMap (extractRecord env) ∧
    (∀ f : String, (∃ m ∈ (main env csvFile).state.meta, m.Path = f) ↔
      (f ∈ (main env csvFile).state.files ∧
        ∃ (b : List Nat) (x : env.RawExif) (i : env.IfdIndex) (d : env.Ifd) (g : env.GpsInfo),
          env.readFile f = .ok b ∧ env.searchAndExtractExif b = .ok x ∧
          env.collect x = .ok i ∧ env.childWithIfdPath i = .ok d ∧ env.gpsInfo d = .ok g)) ∧
    (∀ f : String, extractRecord env f = none →
      (∀ m ∈ (main env csvFile).state.meta, m.Path ≠ f) ∧
      (∀ row ∈ (main env csvFile).dataRows, rowPath row ≠ f)) := by
  obtain ⟨_, _, m3, m4, m5, _⟩ := main_run env csvFile hc hh hl
  have hd : (main env csvFile).dataRows = acceptedRows env 1 (main env csvFile).state.meta := by
    unfold Run.dataRows; rw [m5]; rfl
  have hmem : ∀ m, m ∈ (main env csvFile).state.meta ↔
      ∃ f ∈ (main env csvFile).state.files, extractRecord env f = some m := by
    intro m
    rw [m4, List.mem_filterMap]
  have hnone : ∀ f : String, extractRecord env f = none →
      ∀ m ∈ (main env csvFile).state.meta, m.Path ≠ f := by
    intro f hf m hm hp
    obtain ⟨f1, _, h1⟩ := (hmem m).1 hm
    have := extractRecord_path env f1 m h1
    rw [hp] at this
    rw [← this, hf] at h1
    cases h1
  refine ⟨m3, m4, ?_, ?_⟩
  · intro f
    constructor
    · rintro ⟨m, hm, hp⟩
      obtain ⟨f1, hf1, h1⟩ := (hmem m).1 hm
      have hp1 := extractRecord_path env f1 m h1
      rw [hp] at hp1
      subst hp1
      obtain ⟨b, x, i, d, g, e1, e2, e3, e4, e5, _⟩ := (extractRecord_eq_some env f m).1 h1
      exact ⟨hf1, b, x, i, d, g, e1, e2, e3, e4, e5⟩
    · rintro ⟨hf, b, x, i, d, g, e1, e2, e3, e4, e5⟩
      refine ⟨⟨f, env.latitudeStr g, env.longitudeStr g⟩, ?_, rfl⟩
      exact (hmem _).2 ⟨f, hf, (extractRecord_eq_some env f _).2
        ⟨b, x, i, d, g, e1, e2, e3, e4, e5, rfl⟩⟩
  · intro f hf
    refine ⟨hnone f hf, ?_⟩
    intro row hrow hp
    rw [hd] at hrow
    have h1 := (acceptedRows_sublist env 1 (main env csvFile).state.meta).subset hrow
    obtain ⟨m, hm, rfl⟩ := List.mem_map.1 h1
    exact hnone f hf m hm hp

theorem record_iff_all_steps_witness :
    sampleEnv.createCsv "out.csv" = none ∧ sampleEnv.writeErr 0 = none ∧
    sampleEnv.loadStandardIfds = none ∧
    (main sampleEnv "out.csv").state.reads = (main sampleEnv "out.csv").state.files ∧
    (main sampleEnv "out.csv").state.meta =
      (main sampleEnv "out.csv").state.files.filterMap (extractRecord sampleEnv) :=
  ⟨rfl, rfl, rfl, (record_iff_all_steps sampleEnv "out.csv" rfl rfl rfl).1,
    (record_iff_all_steps sampleEnv "out.csv" rfl rfl rfl).2.1⟩

/-- C7. In a run that reaches the loop, the paths of the CSV data rows, the paths of the
records of `meta` and the image paths of the HTML rows are each a subsequence of `files`
in its order, and `files` is a subsequence of the paths the walk visited. -/
theorem outputs_in_discovery_order (env : Env) (csvFile : String)
    (hc : env.createCsv csvFile = none) (hh : env.writeErr 0 = none)
    (hl : env.loadStandardIfds = none) :
    List.Sublist ((main env csvFile).dataRows.map rowPath) (main env csvFile).state.files ∧
    List.Sublist ((main env csvFile).state.meta.map Metadata.Path)
      (main env csvFile).state.files ∧
    (∀ (name : String) (rows : List HtmlRow),
      (main env csvFile).html = some (.generated name rows) →
        rows.map HtmlRow.imgSrc = (main env csvFile).state.meta.map Metadata.Path ∧
        List.Sublist (rows.map HtmlRow.imgSrc) (main env csvFile).state.files) ∧
    List.Sublist (main env csvFile).state.files (env.entries.map WalkEntry.path) := by
  obtain ⟨_, m2, _, m4, m5, m6⟩ := main_run env csvFile hc hh hl
  have hd : (main env csvFile).dataRows = acceptedRows env 1 (main env csvFile).state.meta := by
    unfold Run.dataRows; rw [m5]; rfl
  have hmeta : List.Sublist ((main env csvFile).state.meta.map Metadata.Path)
      (main env csvFile).state.files := by
    have := paths_filterMap_sublist env (main env csvFile).state.files
    rw [← m4] at this
    exact this
  have hrows : List.Sublist ((main env csvFile).dataRows.map rowPath)
      ((main env csvFile).state.meta.map Metadata.Path) := by
    rw [hd]
    have h1 := (acceptedRows_sublist env 1 (main env csvFile).state.meta).map rowPath
    have h2 : ((main env csvFile).state.meta.map csvRecord).map rowPath =
        (main env csvFile).state.meta.map Metadata.Path := by
      rw [List.map_map]; rfl
    rw [h2] at h1
    exact h1
  refine ⟨hrows.trans hmeta, hmeta, ?_, ?_⟩
  · intro name rows hgen
    rw [m6] at hgen
    have hr : rows = (main env csvFile).state.meta.map renderRow := by
      cases h1 : env.createHtml (htmlFileName csvFile) with
      | some e => rw [h1] at hgen; simp at hgen
      | none =>
        rw [h1] at hgen
        cases h2 : env.execute (main env csvFile).state.meta with
        | some e => rw [h2] at hgen; simp at hgen
        | none =>
          rw [h2] at hgen
          simp only [Option.some.injEq, HtmlResult.generated.injEq] at hgen
          exact hgen.2.symm
    have hp : rows.map HtmlRow.imgSrc = (main env csvFile).state.meta.map Metadata.Path := by
      rw [hr, List.map_map]; rfl
    exact ⟨hp, by rw [hp]; exact hmeta⟩
  · rw [m2]
    unfold keptPaths
    exact (List.filter_sublist _).map _

theorem outputs_in_discovery_order_witness :
    sampleEnv.createCsv "out.csv" = none ∧ sampleEnv.writeErr 0 = none ∧
    sampleEnv.loadStandardIfds = none ∧
    List.Sublist ((main sampleEnv "out.csv").dataRows.map rowPath)
      (main sampleEnv "out.csv").state.files ∧
    List.Sublist ((main sampleEnv "out.csv").state.meta.map Metadata.Path)
      (main sampleEnv "out.csv").state.files :=
  ⟨rfl, rfl, rfl, (outputs_in_discovery_order sampleEnv "out.csv" rfl rfl rfl).1,
    (outputs_in_discovery_order sampleEnv "out.csv" rfl rfl rfl).2.1⟩

theorem main_files (env : Env) (csvFile : String) :
    (main env csvFile).state.files = [] ∨
      (main env csvFile).state.files = keptPaths env.windows env.entries := by
  cases hc : env.createCsv csvFile with
  | some e => left; unfold main; simp [hc, State.init]
  | none =>
    rcases main_rows_cases env csvFile hc with ⟨hh, hl, _, _⟩ | ⟨hh, hl⟩ | ⟨hh, _, _, _, _⟩
    · right
      have hw : CsvWriter.Write env State.init.writer header = (⟨[header], 1⟩, none) := by
        simp [CsvWriter.Write, State.init, hh]
      cases hl1 : env.loadStandardIfds with
      | none => exact absurd hl1 hl
      | some e =>
        unfold main
        simp only [hc, hw, walk_walkFn, hl1]
        simp [State.init]
    · exact Or.inr (main_run env csvFile hc hh hl).2.1
    · left
      cases hh1 : env.writeErr 0 with
      | none => exact absurd hh1 hh
      | some e =>
        have hw : CsvWriter.Write env State.init.writer header = (⟨[], 1⟩, some e) := by
          simp [CsvWriter.Write, State.init, hh1]
        unfold main
        simp only [hc, hw]
        simp [State.init]

/-- C8. Whatever entries the walk hands to the callback, the callback returns nil for
every one of them, so the walk is never stopped and returns nil; the paths appended to
`files` are exactly those of the entries, in visit order, that carry no error, are not
directories and have a supported extension; an entry with an error only prints the
error; a directory is never appended; and `files` in the final state of `main` is that
list (or empty when the run stopped before the walk). -/
theorem walk_collects_files (env : Env) (csvFile : String) (st : State) :
    (Walk (walkFn env.windows) env.entries st).2 = none ∧
    (Walk (walkFn env.windows) env.entries st).1.files =
      st.files ++ (env.entries.filter
        (fun e => e.err.isNone && !e.isDir && isSupportedImageExt env.windows e.path)).map
        WalkEntry.path ∧
    (∀ (p : String) (d : Bool) (err : String),
      walkFn env.windows st ⟨p, d, some err⟩ =
        ({ st with stdout := st.stdout ++ [err] }, none)) ∧
    (∀ (p : String) (err : Option String),
      (walkFn env.windows st ⟨p, true, err⟩).1.files = st.files ∧
      (walkFn env.windows st ⟨p, true, err⟩).2 = none) ∧
    (∀ f ∈ (Walk (walkFn env.windows) env.entries State.init).1.files,
      ∃ e ∈ env.entries, e.path = f ∧ e.isDir = false ∧ e.err = none ∧
        isSupportedImageExt env.windows f = true) ∧
    ((main env csvFile).state.files = [] ∨
      (main env csvFile).state.files = (env.entries.filter
        (fun e => e.err.isNone && !e.isDir && isSupportedImageExt env.windows e.path)).map
        WalkEntry.path) := by
  refine ⟨?_, ?_, ?_, ?_, ?_, main_files env csvFile⟩
  · rw [walk_walkFn]
  · rw [walk_walkFn]; rfl
  · intro p d err
    rfl
  · intro p err
    cases err with
    | some x => exact ⟨rfl, rfl⟩
    | none => simp [walkFn]
  · intro f hf
    rw [walk_walkFn] at hf
    simp only [State.init, List.nil_append, keptPaths, List.mem_map, List.mem_filter,
      Bool.and_eq_true] at hf
    obtain ⟨e, ⟨he, ⟨h1, h2⟩, h3⟩, rfl⟩ := hf
    refine ⟨e, he, rfl, ?_, ?_, h3⟩
    · simpa using h2
    · simpa using h1

/-- C2, on the code: when the stat of the root fails and the callback is called once with
that error, the callback returns nil, the walk returns nil and `main` does not take the
fatal branch: it ends with status 0 after writing a header-only CSV and calling
`GenerateHTML`, which produces an HTML file with no row. -/
theorem missing_root_not_fatal :
    missingRootEnv.entries =
      [⟨"images", false, some "lstat images: no such file or directory"⟩] ∧
    (Walk (walkFn missingRootEnv.windows) missingRootEnv.entries State.init).2 = none ∧
    (main missingRootEnv "output.csv").exit = .ok ∧
    (main missingRootEnv "output.csv").exit.status = 0 ∧
    (main missingRootEnv "output.csv").state.writer.rows = [header] ∧
    (main missingRootEnv "output.csv").html = some (.generated "output.html" []) := by
  decide

end ImageGpsExif
